import Mathlib

/-!
Formal model of the Scribe validation-pipeline orchestrator (`scribe0.py`).

The Python source is shallowly embedded: each component is translated into an
executable Lean function, with the effectful collaborators (subprocesses, the
inference backend, the filesystem) turned into explicit inputs describing the
outcome of each external interaction.  The theorems at the end of the file
settle the claims C1 through C10 about the pipeline engine, the tool runner,
the environment manager, the model client and the code-extraction convention.
-/

namespace Scribe

/-- Step status constants (`STATUS_SUCCESS` .. `STATUS_PENDING` in the source). -/
inductive Status where
  | success
  | failure
  | warning
  | skipped
  | advisory
  | pending
deriving DecidableEq

/-- One recorded step result: the name, the classified status and the details
message recorded with it (`StepResult` in the source, restricted to the fields
the claims are about). -/
structure StepResult where
  name : String
  status : Status
  detailsMsg : String
deriving DecidableEq

/-- The run-mode flags parsed by `ScribeAgent._parse_arguments`:
`--review-only`, `--no-commit`, and the mutually exclusive pair that feeds the
resolved `commit` attribute (`commit_explicitly_true` via `--commit` and the
hidden `commit_explicitly_false`). -/
structure ScribeFlags where
  reviewOnly : Bool
  noCommit : Bool
  commitExplicitlyTrue : Bool
  commitExplicitlyFalse : Bool
deriving DecidableEq

/-- The resolution of the user's commit intent at the end of
`ScribeAgent._parse_arguments`: `--commit` wins, the hidden negative flag comes
next, and with neither flag given the intent defaults to true. -/
def resolvedCommitArg (f : ScribeFlags) : Bool :=
  if f.commitExplicitlyTrue then true
  else if f.commitExplicitlyFalse then false
  else true

/-- The effective commit decision computed once in `ScribeAgent.__init__`:
review-only forces it off, otherwise no-commit forces it off, otherwise the
resolved commit intent is used. -/
def doCommit (f : ScribeFlags) : Bool :=
  if f.reviewOnly then false
  else if f.noCommit then false
  else resolvedCommitArg f

/-- Modelled from the spec's words (for comparison with `doCommit`): effective
commit intent is false when review-only is active; otherwise false when
no-commit is active; otherwise it equals the user's explicit commit flag,
which defaults to true when neither commit flag was given. -/
def effectiveCommitIntentSpec (f : ScribeFlags) : Bool :=
  if f.reviewOnly then false
  else if f.noCommit then false
  else if f.commitExplicitlyTrue then true
  else if f.commitExplicitlyFalse then false
  else true

/-- The outcome of actually invoking one workflow step: either the step
returned a `(status, details)` pair, or it raised (a `ScribeError` or any
other exception, both of which `_execute_step` converts to FAILURE). -/
inductive StepOutcome where
  | ret (status : Status) (msg : String)
  | err (msg : String)

/-- The step methods defined on `WorkflowSteps`; `getattr` resolution of a
configured step name succeeds exactly on these names. -/
def workflowStepNames : List String :=
  ["validate_inputs", "setup_environment", "install_deps", "audit_deps",
   "apply_code", "format_code", "lint_code", "type_check",
   "extract_signatures", "generate_tests", "save_tests", "execute_tests",
   "review_code", "run_precommit", "commit_changes", "generate_report"]

/-- The default `validation_steps` list from `ScribeConfig._get_default_config`. -/
def defaultValidationSteps : List String :=
  ["validate_inputs", "setup_environment", "install_deps", "audit_deps",
   "apply_code", "format_code", "lint_code", "type_check",
   "extract_signatures", "generate_tests", "save_tests", "execute_tests",
   "review_code", "run_precommit", "commit_changes", "generate_report"]

/-- The orchestrator's mutable state while the loop runs: the recorded step
results (`_report_data["steps"]`), the names of the steps whose callables were
actually invoked, and the `_overall_success` flag. -/
structure LoopState where
  results : List StepResult
  invoked : List String
  overallSuccess : Bool

/-- `ScribeAgent._execute_step`: if the run has already failed and this is not
the terminal report step, record SKIPPED without invoking the step and let the
loop continue; otherwise invoke the step, record its status (exceptions become
FAILURE), update `_overall_success`, and return whether the loop may continue
(false exactly when this step recorded FAILURE). -/
def execStep (oracle : Nat → StepOutcome) (idx : Nat) (name : String)
    (st : LoopState) : LoopState × Bool :=
  if st.overallSuccess = false ∧ name ≠ "generate_report" then
    ({ st with results :=
        st.results ++ [⟨name, Status.skipped, "Skipped due to prior failure."⟩] },
      true)
  else
    match oracle idx with
    | StepOutcome.ret s m =>
        ({ st with
            results := st.results ++ [⟨name, s, m⟩],
            invoked := st.invoked ++ [name],
            overallSuccess := if s = Status.failure then false else st.overallSuccess },
          if s = Status.failure then false else true)
    | StepOutcome.err m =>
        ({ st with
            results := st.results ++ [⟨name, Status.failure, m⟩],
            invoked := st.invoked ++ [name],
            overallSuccess := false },
          false)

/-- The reason string used when the commit step is skipped because the
effective commit decision is false. -/
def commitSkipReason (f : ScribeFlags) : String :=
  if f.reviewOnly then "--review-only active"
  else if f.noCommit then "--no-commit active"
  else "Commit not planned"

/-- Whether the last recorded step result has status FAILURE (the check done
after `review_code` in review-only mode). -/
def lastFailed (l : List StepResult) : Bool :=
  match l.getLast? with
  | some r => r.status == Status.failure
  | none => false

/-- The step loop of `ScribeAgent.run`, iterating over the configured step
names.  An unresolvable name records a synthetic FAILURE and halts; the
pre-commit step is skipped under review-only; the commit step is skipped when
the effective commit decision is false; otherwise the step is executed via
`execStep`, the loop halts when that returns false, and in review-only mode
the loop also halts right after `review_code`. -/
def runSteps (f : ScribeFlags) (oracle : Nat → StepOutcome) :
    Nat → List String → LoopState → LoopState
  | _, [], st => st
  | idx, name :: rest, st =>
    if name ∉ workflowStepNames then
      { st with
          results := st.results ++
            [⟨name, Status.failure, "Invalid step " ++ name ++ " in configuration."⟩],
          overallSuccess := false }
    else if name = "run_precommit" ∧ f.reviewOnly = true then
      runSteps f oracle (idx + 1) rest
        { st with results := st.results ++
            [⟨name, Status.skipped, "Skipped: --review-only active."⟩] }
    else if name = "commit_changes" ∧ doCommit f = false then
      runSteps f oracle (idx + 1) rest
        { st with results := st.results ++
            [⟨name, Status.skipped, "Skipped: " ++ commitSkipReason f ++ "."⟩] }
    else
      let p := execStep oracle idx name st
      if p.2 = false then p.1
      else if name = "review_code" ∧ f.reviewOnly = true then
        if lastFailed p.1.results then { p.1 with overallSuccess := false } else p.1
      else runSteps f oracle (idx + 1) rest p.1

/-- The observable outcome of one whole run: the recorded step results, the
invoked step names, the finalized overall status and the process exit code. -/
structure RunResult where
  results : List StepResult
  invoked : List String
  overallStatus : Status
  exitCode : Nat

/-- `ScribeAgent.run`: an empty (or unset) configured step list records a
single synthetic `pipeline_setup` FAILURE and exits with code 1; otherwise the
loop runs and overall status is SUCCESS with exit code 0 exactly when
`_overall_success` survived, FAILURE with exit code 1 otherwise. -/
def scribeRun (f : ScribeFlags) (steps : List String)
    (oracle : Nat → StepOutcome) : RunResult :=
  if steps.isEmpty then
    { results := [⟨"pipeline_setup", Status.failure,
        "Critical: Validation steps not configured in ScribeConfig."⟩],
      invoked := [],
      overallStatus := Status.failure,
      exitCode := 1 }
  else
    { results := (runSteps f oracle 0 steps ⟨[], [], true⟩).results,
      invoked := (runSteps f oracle 0 steps ⟨[], [], true⟩).invoked,
      overallStatus := if (runSteps f oracle 0 steps ⟨[], [], true⟩).overallSuccess
        then Status.success else Status.failure,
      exitCode := if (runSteps f oracle 0 steps ⟨[], [], true⟩).overallSuccess
        then 0 else 1 }

/-- No recorded result carries status FAILURE. -/
def noFailure (l : List StepResult) : Bool :=
  l.all (fun r => r.status != Status.failure)

/-- Flags for a plain run: no review-only, no no-commit, no explicit commit flag. -/
def cexFlags : ScribeFlags := ⟨false, false, false, false⟩

/-- Flags for a review-only run. -/
def reviewOnlyFlags : ScribeFlags := ⟨true, false, false, false⟩

/-- A step oracle under which every invoked step returns FAILURE. -/
def failFirstOracle : Nat → StepOutcome := fun _ => StepOutcome.ret Status.failure "boom"

/-- A step oracle under which every invoked step returns SUCCESS. -/
def allOkOracle : Nat → StepOutcome := fun _ => StepOutcome.ret Status.success "ok"

/-! ## Python string trimming (`str.strip`) -/

/-- The ASCII whitespace characters removed by Python `str.strip()` (the
strings handled here are ASCII). -/
def pyWs (c : Char) : Bool :=
  c == ' ' || c == '\t' || c == '\n' || c == '\r' || c == '\x0b' || c == '\x0c'

/-- `str.strip()` on a character list: drop whitespace from both ends. -/
def stripChars (l : List Char) : List Char :=
  ((l.dropWhile pyWs).reverse.dropWhile pyWs).reverse

/-- `str.strip()` on a string. -/
def pyStrip (s : String) : String := String.mk (stripChars s.toList)

/-! ## Tool runner (`ToolRunner.run_tool`) -/

/-- The outcome of one `subprocess.run` invocation, as seen by the runner:
the process completed with an exit code and captured streams, it hit the
timeout, or the operating system refused to start it. -/
inductive ProcOutcome where
  | completes (rc : Int) (out err : String)
  | timesOut (out err : String)
  | spawnFail (msg : String)
deriving DecidableEq

/-- The fields of `subprocess.CompletedProcess` the claims are about. -/
structure CompletedProc where
  returncode : Int
  stdout : String
  stderr : String
deriving DecidableEq

/-- The timeout marker prepended to stderr of the synthetic timeout result
(the quote characters the f-string puts around the command are omitted). -/
def timeoutMarker (cmdStr timeoutStr : String) : String :=
  "TimeoutExpired: Cmd " ++ cmdStr ++ " > " ++ timeoutStr ++ "s."

/-- `ToolRunner.run_tool`: an empty command yields a synthetic 127 result; an
unresolvable executable raises `ScribeToolError`; a completed process is
returned whatever its exit code (`check=False`); a timeout returns a
synthetic result with return code -1 and the timeout marker prepended to the
captured stderr, all stripped; an OS-level failure to start raises
`ScribeToolError`.  `findExec` is `_find_executable` (configured path, venv
binary dir, then system path); `proc` the behaviour of the spawned process. -/
def runTool (commandArgs : List String) (findExec : String → Option String)
    (proc : ProcOutcome) (cmdStr timeoutStr : String) :
    Except String CompletedProc :=
  match commandArgs with
  | [] => Except.ok ⟨127, "", "No command."⟩
  | execName :: _ =>
    match findExec execName with
    | none => Except.error ("Executable " ++ execName ++ " not found.")
    | some _ =>
      match proc with
      | ProcOutcome.completes rc out err => Except.ok ⟨rc, out, err⟩
      | ProcOutcome.timesOut out err =>
          Except.ok ⟨-1, out,
            pyStrip (timeoutMarker cmdStr timeoutStr ++ "\n" ++ err)⟩
      | ProcOutcome.spawnFail m =>
          Except.error ("OS error executing " ++ execName ++ ": " ++ m)

/-! ## Environment manager (`EnvironmentManager.setup_venv`) -/

/-- The filesystem facts `setup_venv` consults: whether the venv directory
exists and whether the python and pip executables are found inside it. -/
structure VenvFS where
  venvExists : Bool
  hasPython : Bool
  hasPip : Bool
deriving DecidableEq

/-- The behaviour of the external commands `setup_venv` runs: the venv
creation call (which may raise a tool error or return a code), what the venv
contains after a successful creation, and the pip-tools upgrade call. -/
structure VenvEnvBehavior where
  createRaises : Bool
  createRC : Int
  pythonAfterCreate : Bool
  pipAfterCreate : Bool
  upgradeRaises : Bool
  upgradeRC : Int
deriving DecidableEq

/-- What a successful `setup_venv` leaves behind: the venv filesystem state,
whether this invocation performed the creation, and whether the (non-fatal)
pip-tools upgrade merely warned. -/
structure SetupOutcome where
  fs : VenvFS
  created : Bool
  upgradeWarned : Bool
deriving DecidableEq

/-- The tail of `setup_venv` after the create-if-absent check: locate python
and pip in the venv (fatal if missing), then try to upgrade the packaging
tools, where any failure is only a warning. -/
def setupVenvFinish (fs : VenvFS) (env : VenvEnvBehavior) (created : Bool) :
    Except String SetupOutcome :=
  if fs.hasPython = false ∨ fs.hasPip = false then
    Except.error "Python or pip not found in venv."
  else
    Except.ok ⟨fs, created, env.upgradeRaises || (env.upgradeRC != 0)⟩

/-- `EnvironmentManager.setup_venv`: create the venv only when the directory
does not exist (creation failure is fatal), otherwise reuse the existing one;
then resolve executables and upgrade packaging tools via `setupVenvFinish`. -/
def setupVenv (fs : VenvFS) (env : VenvEnvBehavior) : Except String SetupOutcome :=
  if fs.venvExists = false then
    if env.createRaises = true then Except.error "Venv create cmd error."
    else if env.createRC ≠ 0 then Except.error "Venv create fail."
    else setupVenvFinish ⟨true, env.pythonAfterCreate, env.pipAfterCreate⟩ env true
  else setupVenvFinish fs env false

/-! ## Model client retry loop (`LLMClient._call_api`) -/

/-- What one attempt of the Ollama POST does: success with a usable response
text; a network or timeout error (retryable); a JSON decode error of the
received body (breaks the loop); or any other error, e.g. an HTTP status
error or an error field in the response (breaks the loop). -/
inductive AttemptOutcome where
  | ok (resp : String)
  | netErr (msg : String)
  | jsonErr (msg : String)
  | otherErr (msg : String)
deriving DecidableEq

/-- The single classified `ScribeApiError` raised when the loop gives up,
carrying the last underlying failure as its cause. -/
structure ApiFailure where
  message : String
  cause : String
deriving DecidableEq

/-- Builds the error raised at `raise ScribeApiError(...) from last_exc`. -/
def apiFail (e : String) : ApiFailure :=
  ⟨"Ollama call failed definitively: " ++ e, e⟩

/-- The observable outcome of `_call_api`: the result (one raised error or
the response), how many attempts were made, and how many inter-attempt
delays (`time.sleep`) were taken. -/
structure CallApiResult where
  result : Except ApiFailure String
  attempts : Nat
  sleeps : Nat

/-- The retry loop of `_call_api`, with `remaining` the retries still
allowed after the current attempt: success returns at once; a network error
sleeps and retries while retries remain and otherwise falls through to the
raise; JSON decode errors and all other errors break out to the raise. -/
def callApiGo (outcomes : Nat → AttemptOutcome) : Nat → Nat → CallApiResult
  | attempt, 0 =>
    match outcomes attempt with
    | AttemptOutcome.ok r => ⟨Except.ok r, attempt + 1, 0⟩
    | AttemptOutcome.netErr e => ⟨Except.error (apiFail e), attempt + 1, 0⟩
    | AttemptOutcome.jsonErr e => ⟨Except.error (apiFail e), attempt + 1, 0⟩
    | AttemptOutcome.otherErr e => ⟨Except.error (apiFail e), attempt + 1, 0⟩
  | attempt, remaining + 1 =>
    match outcomes attempt with
    | AttemptOutcome.ok r => ⟨Except.ok r, attempt + 1, 0⟩
    | AttemptOutcome.netErr _ =>
        ⟨(callApiGo outcomes (attempt + 1) remaining).result,
          (callApiGo outcomes (attempt + 1) remaining).attempts,
          (callApiGo outcomes (attempt + 1) remaining).sleeps + 1⟩
    | AttemptOutcome.jsonErr e => ⟨Except.error (apiFail e), attempt + 1, 0⟩
    | AttemptOutcome.otherErr e => ⟨Except.error (apiFail e), attempt + 1, 0⟩

/-- `LLMClient._call_api` with the configured retry count
(`ollama_api_retries`): up to `retries + 1` total attempts. -/
def callApi (outcomes : Nat → AttemptOutcome) (retries : Nat) : CallApiResult :=
  callApiGo outcomes 0 retries

/-! ## Code extraction (`LLMClient._extract_code_from_response`) -/

/-- The backtick character, ASCII 96. -/
def btick : Char := '\x60'

/-- The opening fence of a python-tagged block, the literal part of the regex
pattern for tagged blocks: three backticks, the (case-insensitively matched)
word python, a newline. -/
def pyOpenTag : List Char :=
  [btick, btick, btick, 'p', 'y', 't', 'h', 'o', 'n', '\n']

/-- The closing fence: a newline followed by three backticks. -/
def closeTag : List Char := ['\n', btick, btick, btick]

/-- Does the list start with the closing fence? -/
def closeAt : List Char → Bool
  | a :: b :: c :: d :: _ => a == '\n' && b == btick && c == btick && d == btick
  | _ => false

/-- Index of the first occurrence of the closing fence, the target the lazy
group of both regexes stops at. -/
def findClose : List Char → Option Nat
  | [] => none
  | c :: cs => if closeAt (c :: cs) then some 0 else (findClose cs).map (· + 1)

/-- Case-insensitive character comparison (regex IGNORECASE). -/
def lcEq (a b : Char) : Bool := a.toLower == b.toLower

/-- Case-insensitive "starts with". -/
def leadsWithCI : List Char → List Char → Bool
  | [], _ => true
  | _ :: _, [] => false
  | p :: ps, c :: cs => lcEq p c && leadsWithCI ps cs

/-- Case-sensitive "starts with". -/
def leadsWith : List Char → List Char → Bool
  | [], _ => true
  | _ :: _, [] => false
  | p :: ps, c :: cs => (p == c) && leadsWith ps cs

/-- The characters the generic fence regex allows in a language tag,
the class of small letters, capitals, digits, underscore, dot and dash. -/
def tagChar (c : Char) : Bool := c.isAlphanum || c == '_' || c == '.' || c == '-'

/-- Left-to-right scan collecting every non-overlapping match of the
python-tagged fence regex (DOTALL and IGNORECASE, lazy body); the fuel is one
more than the scanned length, so it never runs out. -/
def scanPyF : Nat → List Char → List (List Char)
  | 0, _ => []
  | _ + 1, [] => []
  | fuel + 1, c :: cs =>
    if leadsWithCI pyOpenTag (c :: cs) then
      match findClose ((c :: cs).drop 10) with
      | some j =>
          ((c :: cs).drop 10).take j ::
            scanPyF fuel (((c :: cs).drop 10).drop (j + 4))
      | none => scanPyF fuel cs
    else scanPyF fuel cs

/-- `re.findall` for the python-tagged fence pattern. -/
def scanPy (l : List Char) : List (List Char) := scanPyF (l.length + 1) l

/-- Left-to-right scan collecting every non-overlapping match of the generic
fence regex: three backticks, an optional run of tag characters, a newline,
then a lazy body up to the closing fence. -/
def scanGenF : Nat → List Char → List (List Char)
  | 0, _ => []
  | _ + 1, [] => []
  | fuel + 1, c :: cs =>
    if leadsWith [btick, btick, btick] (c :: cs) then
      match ((c :: cs).drop 3).drop (((c :: cs).drop 3).takeWhile tagChar).length with
      | '\n' :: body =>
        match findClose body with
        | some j => body.take j :: scanGenF fuel (body.drop (j + 4))
        | none => scanGenF fuel cs
      | _ => scanGenF fuel cs
    else scanGenF fuel cs

/-- `re.findall` for the generic fence pattern. -/
def scanGen (l : List Char) : List (List Char) := scanGenF (l.length + 1) l

/-- Modelled from the spec's words (the code has no untagged-only fallback):
the fenced blocks with no language tag at all, three backticks followed
immediately by a newline.  Used only to state the untagged-fallback clause of
the claim exactly as the spec writes it. -/
def scanUntaggedSpecF : Nat → List Char → List (List Char)
  | 0, _ => []
  | _ + 1, [] => []
  | fuel + 1, c :: cs =>
    if leadsWith [btick, btick, btick, '\n'] (c :: cs) then
      match findClose ((c :: cs).drop 4) with
      | some j =>
          ((c :: cs).drop 4).take j ::
            scanUntaggedSpecF fuel (((c :: cs).drop 4).drop (j + 4))
      | none => scanUntaggedSpecF fuel cs
    else scanUntaggedSpecF fuel cs

/-- The untagged-block list per the spec's words. -/
def scanUntaggedSpec (l : List Char) : List (List Char) :=
  scanUntaggedSpecF (l.length + 1) l

/-- Python `sep.join(items)`. -/
def joinSep (sep : String) : List String → String
  | [] => ""
  | [x] => x
  | x :: xs => x ++ sep ++ joinSep sep xs

/-- The separator comment placed between concatenated python blocks. -/
def sepComment : String := "\n\n# Scribe: Concatenated Block\n\n"

/-- `LLMClient._extract_code_from_response`: python-tagged blocks win and are
each stripped and joined with the separator comment (the joined string
stripped again); otherwise the first generic fenced block, stripped;
otherwise the whole response, stripped. -/
def extractCode (resp : String) : String :=
  match scanPy resp.toList with
  | [] =>
    match scanGen resp.toList with
    | b :: _ => String.mk (stripChars b)
    | [] => pyStrip resp
  | blocks =>
    pyStrip (joinSep sepComment (blocks.map (fun b => String.mk (stripChars b))))

/-! ## AI steps (`LLMClient.generate_tests`, `WorkflowSteps`) -/

/-- One AI-review finding with the three required string fields. -/
structure Finding where
  severity : String
  description : String
  location : String
deriving DecidableEq

/-- Python truthiness of an optional string (`None` and `""` are falsy). -/
def pyTruthy : Option String → Bool
  | none => false
  | some s => !s.isEmpty

/-- `LLMClient.generate_tests`: `apiResult` is the outcome of `_call_api`
for the test prompt (a raised error or the response text) and `parsesOk`
stands for `ast.parse` succeeding on the extracted code.  An API error, an
empty response, an empty extraction, or a syntax error each yield `none`;
otherwise the validated extracted code is returned. -/
def llmGenerateTests (apiResult : Except String String)
    (parsesOk : String → Bool) : Option String :=
  match apiResult with
  | Except.error _ => none
  | Except.ok raw =>
    if (pyStrip raw).isEmpty then none
    else if (extractCode raw).isEmpty then none
    else if parsesOk (extractCode raw) then some (extractCode raw)
    else none

/-- `WorkflowSteps.generate_tests`: SUCCESS with the generated code and a
success message when the client returned usable code, FAILURE otherwise.
The components are the status, the `raw_output` payload and the message. -/
def stepGenerateTests (tests : Option String) : Status × Option String × String :=
  (if pyTruthy tests then Status.success else Status.failure,
    tests,
    if pyTruthy tests then "Tests AI-generated." else "Test gen failed.")

/-- `WorkflowSteps.save_tests`: given the dependent `raw_output` payload of
the test-generation step, write the code when it is truthy (the middle
component is the written file content), else record WARNING and write
nothing. -/
def stepSaveTests (genRawOutput : Option String) : Status × Option String × String :=
  if pyTruthy genRawOutput then
    (Status.success, some (genRawOutput.getD ""), "Tests saved.")
  else (Status.warning, none, "No test code to save.")

/-- `WorkflowSteps.review_code`: the status is ADVISORY no matter whether the
review client produced findings, a list (possibly empty) or `none` after a
parse failure; `review or []` is recorded as the issues found. -/
def stepReviewCode (review : Option (List Finding)) : Status × List Finding :=
  (Status.advisory, review.getD [])

/-- A concrete parse oracle for evaluations: accepts exactly the expected
generated test module. -/
def parsesOkC10 : String → Bool := fun s => s == "import pytest"

end Scribe

namespace Scribe

/-! ## Helper lemmas about the orchestrator loop -/

theorem if_true_bool {α : Sort _} (a b : α) :
    (if (true : Bool) = true then a else b) = a := rfl

theorem if_false_bool {α : Sort _} (a b : α) :
    (if (false : Bool) = true then a else b) = b := rfl

theorem scribeRun_results (f : ScribeFlags) (steps : List String)
    (oracle : Nat → StepOutcome) (hemp : ¬ steps.isEmpty = true) :
    (scribeRun f steps oracle).results =
      (runSteps f oracle 0 steps ⟨[], [], true⟩).results := by
  unfold scribeRun
  rw [if_neg hemp]

theorem scribeRun_invoked (f : ScribeFlags) (steps : List String)
    (oracle : Nat → StepOutcome) (hemp : ¬ steps.isEmpty = true) :
    (scribeRun f steps oracle).invoked =
      (runSteps f oracle 0 steps ⟨[], [], true⟩).invoked := by
  unfold scribeRun
  rw [if_neg hemp]

theorem scribeRun_overallStatus (f : ScribeFlags) (steps : List String)
    (oracle : Nat → StepOutcome) (hemp : ¬ steps.isEmpty = true) :
    (scribeRun f steps oracle).overallStatus =
      (if (runSteps f oracle 0 steps ⟨[], [], true⟩).overallSuccess
        then Status.success else Status.failure) := by
  unfold scribeRun
  rw [if_neg hemp]

theorem scribeRun_exitCode (f : ScribeFlags) (steps : List String)
    (oracle : Nat → StepOutcome) (hemp : ¬ steps.isEmpty = true) :
    (scribeRun f steps oracle).exitCode =
      (if (runSteps f oracle 0 steps ⟨[], [], true⟩).overallSuccess
        then 0 else 1) := by
  unfold scribeRun
  rw [if_neg hemp]

theorem noFailure_append (l : List StepResult) (r : StepResult) :
    noFailure (l ++ [r]) = (noFailure l && (r.status != Status.failure)) := by
  simp [noFailure]

theorem noFailure_iff (l : List StepResult) :
    noFailure l = true ↔ ∀ r ∈ l, r.status ≠ Status.failure := by
  simp [noFailure, List.all_eq_true]

theorem lastFailed_of_noFailure (l : List StepResult) (hn : noFailure l = true) :
    lastFailed l = false := by
  unfold lastFailed
  cases hl : l.getLast? with
  | none => rfl
  | some r =>
    have hr : r ∈ l := by
      obtain ⟨hne, hx⟩ :=
        List.mem_getLast?_eq_getLast (l := l) (x := r) (Option.mem_def.mpr hl)
      exact hx ▸ List.getLast_mem hne
    have hne := (noFailure_iff l).mp hn r hr
    simp [hne]

/-- Shape of `execStep` from a not-yet-failed state: either the loop may
continue and the state is still clean, or the step recorded FAILURE as the
newly appended last result and the loop must halt. -/
theorem execStep_shape (oracle : Nat → StepOutcome) (idx : Nat) (name : String)
    (st : LoopState) (hs : st.overallSuccess = true)
    (hn : noFailure st.results = true) :
    ((execStep oracle idx name st).2 = true ∧
      (execStep oracle idx name st).1.overallSuccess = true ∧
      noFailure (execStep oracle idx name st).1.results = true) ∨
    ((execStep oracle idx name st).2 = false ∧
      (execStep oracle idx name st).1.overallSuccess = false ∧
      ∃ r, (execStep oracle idx name st).1.results = st.results ++ [r] ∧
        r.status = Status.failure) := by
  unfold execStep
  rw [if_neg (by simp [hs])]
  cases oracle idx with
  | ret s m =>
    by_cases hf : s = Status.failure
    · right
      subst hf
      refine ⟨by simp, by simp, ⟨name, Status.failure, m⟩, by simp, rfl⟩
    · left
      refine ⟨by simp [hf], by simp [hf, hs], ?_⟩
      simp [hf, noFailure_append, hn]
  | err m =>
    right
    exact ⟨rfl, rfl, ⟨name, Status.failure, m⟩, rfl, rfl⟩

/-- Shape of the whole loop from a clean state: either the final state is
clean (no FAILURE recorded), or `_overall_success` is false and exactly one
FAILURE was recorded, as the very last result. -/
theorem runSteps_shape (f : ScribeFlags) (oracle : Nat → StepOutcome)
    (names : List String) :
    ∀ (idx : Nat) (st : LoopState),
      st.overallSuccess = true → noFailure st.results = true →
      ((runSteps f oracle idx names st).overallSuccess = true ∧
        noFailure (runSteps f oracle idx names st).results = true) ∨
      ((runSteps f oracle idx names st).overallSuccess = false ∧
        ∃ l r, (runSteps f oracle idx names st).results = l ++ [r] ∧
          noFailure l = true ∧ r.status = Status.failure) := by
  induction names with
  | nil =>
    intro idx st hs hn
    left
    exact ⟨hs, hn⟩
  | cons name rest ih =>
    intro idx st hs hn
    rw [runSteps]
    by_cases hvalid : name ∉ workflowStepNames
    · rw [if_pos hvalid]
      right
      exact ⟨rfl, st.results,
        ⟨name, Status.failure, "Invalid step " ++ name ++ " in configuration."⟩,
        rfl, hn, rfl⟩
    · rw [if_neg hvalid]
      by_cases hpc : name = "run_precommit" ∧ f.reviewOnly = true
      · rw [if_pos hpc]
        exact ih (idx + 1) _ hs (by simp [noFailure_append, hn])
      · rw [if_neg hpc]
        by_cases hcc : name = "commit_changes" ∧ doCommit f = false
        · rw [if_pos hcc]
          exact ih (idx + 1) _ hs (by simp [noFailure_append, hn])
        · rw [if_neg hcc]
          rcases execStep_shape oracle idx name st hs hn with
            ⟨hcont, hs1, hn1⟩ | ⟨hstop, hs1, r, hres, hrf⟩
          · rw [if_neg (by simp [hcont])]
            by_cases hrev : name = "review_code" ∧ f.reviewOnly = true
            · rw [if_pos hrev, lastFailed_of_noFailure _ hn1]
              simp only [Bool.false_eq_true, if_false]
              left
              exact ⟨hs1, hn1⟩
            · rw [if_neg hrev]
              exact ih (idx + 1) _ hs1 hn1
          · rw [if_pos hstop]
            right
            exact ⟨hs1, st.results, r, hres, hn, hrf⟩

theorem doCommit_false_of_reviewOnly (f : ScribeFlags) (h : f.reviewOnly = true) :
    doCommit f = false := by
  unfold doCommit
  rw [if_pos h]

/-- `execStep` always appends exactly one result, named after the step, and
extends the invoked list by at most that step's name. -/
theorem execStep_append (oracle : Nat → StepOutcome) (idx : Nat) (name : String)
    (st : LoopState) :
    ∃ r, (execStep oracle idx name st).1.results = st.results ++ [r] ∧
      r.name = name ∧
      ((execStep oracle idx name st).1.invoked = st.invoked ∨
        (execStep oracle idx name st).1.invoked = st.invoked ++ [name]) := by
  unfold execStep
  by_cases hskip : st.overallSuccess = false ∧ name ≠ "generate_report"
  · rw [if_pos hskip]
    exact ⟨_, rfl, rfl, Or.inl rfl⟩
  · rw [if_neg hskip]
    cases oracle idx with
    | ret s m => exact ⟨_, rfl, rfl, Or.inr rfl⟩
    | err m => exact ⟨_, rfl, rfl, Or.inr rfl⟩

/-- Loop invariant for review-only runs: the pre-commit step and the commit
step are never handed to `execStep`, so they are never invoked and any result
recorded under their names is a SKIPPED record from the flag logic. -/
theorem runSteps_review_only_inv (f : ScribeFlags) (oracle : Nat → StepOutcome)
    (target : String) (hrev : f.reviewOnly = true)
    (htgt : target = "run_precommit" ∨ target = "commit_changes")
    (names : List String) :
    ∀ (idx : Nat) (st : LoopState),
      target ∉ st.invoked →
      (∀ r ∈ st.results, r.name = target → r.status = Status.skipped) →
      target ∉ (runSteps f oracle idx names st).invoked ∧
      (∀ r ∈ (runSteps f oracle idx names st).results,
        r.name = target → r.status = Status.skipped) := by
  have htgt_valid : target ∈ workflowStepNames := by
    rcases htgt with h | h <;> rw [h] <;> decide
  induction names with
  | nil =>
    intro idx st hi hres
    exact ⟨hi, hres⟩
  | cons name rest ih =>
    intro idx st hi hres
    rw [runSteps]
    by_cases hvalid : name ∉ workflowStepNames
    · rw [if_pos hvalid]
      refine ⟨hi, ?_⟩
      intro r hr hname
      rcases List.mem_append.mp hr with h | h
      · exact hres r h hname
      · simp only [List.mem_singleton] at h
        subst h
        simp only at hname
        exact absurd (hname ▸ htgt_valid) hvalid
    · rw [if_neg hvalid]
      by_cases hpc : name = "run_precommit" ∧ f.reviewOnly = true
      · rw [if_pos hpc]
        refine ih (idx + 1) _ hi ?_
        intro r hr hname
        rcases List.mem_append.mp hr with h | h
        · exact hres r h hname
        · simp only [List.mem_singleton] at h
          subst h
          rfl
      · rw [if_neg hpc]
        by_cases hcc : name = "commit_changes" ∧ doCommit f = false
        · rw [if_pos hcc]
          refine ih (idx + 1) _ hi ?_
          intro r hr hname
          rcases List.mem_append.mp hr with h | h
          · exact hres r h hname
          · simp only [List.mem_singleton] at h
            subst h
            rfl
        · rw [if_neg hcc]
          have hname_ne : name ≠ target := by
            rcases htgt with h | h
            · intro he
              exact hpc ⟨he.trans h, hrev⟩
            · intro he
              exact hcc ⟨he.trans h, doCommit_false_of_reviewOnly f hrev⟩
          obtain ⟨r, hr_res, hr_name, hr_inv⟩ := execStep_append oracle idx name st
          have hinv1 : target ∉ (execStep oracle idx name st).1.invoked := by
            rcases hr_inv with h | h
            · rw [h]; exact hi
            · rw [h]
              intro hmem
              rcases List.mem_append.mp hmem with h2 | h2
              · exact hi h2
              · simp only [List.mem_singleton] at h2
                exact hname_ne h2.symm
          have hres1 : ∀ x ∈ (execStep oracle idx name st).1.results,
              x.name = target → x.status = Status.skipped := by
            rw [hr_res]
            intro x hx hxname
            rcases List.mem_append.mp hx with h2 | h2
            · exact hres x h2 hxname
            · simp only [List.mem_singleton] at h2
              subst h2
              exact absurd (hr_name ▸ hxname) hname_ne
          by_cases hstop : (execStep oracle idx name st).2 = false
          · rw [if_pos hstop]
            exact ⟨hinv1, hres1⟩
          · rw [if_neg hstop]
            by_cases hrc : name = "review_code" ∧ f.reviewOnly = true
            · rw [if_pos hrc]
              by_cases hlf : lastFailed (execStep oracle idx name st).1.results = true
              · rw [if_pos hlf]
                exact ⟨hinv1, hres1⟩
              · rw [if_neg hlf]
                exact ⟨hinv1, hres1⟩
            · rw [if_neg hrc]
              exact ih (idx + 1) _ hinv1 hres1

/-- The results list of a full run is either failure-free or has its single
FAILURE as the very last entry. -/
theorem scribeRun_results_shape (f : ScribeFlags) (steps : List String)
    (oracle : Nat → StepOutcome) :
    noFailure (scribeRun f steps oracle).results = true ∨
    ((scribeRun f steps oracle).overallStatus = Status.failure ∧
      ∃ l r, (scribeRun f steps oracle).results = l ++ [r] ∧
        noFailure l = true ∧ r.status = Status.failure) := by
  by_cases hemp : steps.isEmpty
  · right
    unfold scribeRun
    rw [if_pos hemp]
    exact ⟨rfl, [], _, rfl, rfl, rfl⟩
  · rw [scribeRun_results f steps oracle hemp,
      scribeRun_overallStatus f steps oracle hemp]
    rcases runSteps_shape f oracle steps 0 ⟨[], [], true⟩ rfl rfl with
      ⟨hs, hn⟩ | ⟨hs, l, r, hres, hl, hrf⟩
    · exact Or.inl hn
    · right
      rw [hs, if_false_bool]
      exact ⟨rfl, l, r, hres, hl, hrf⟩

theorem failure_last_aux (l : List StepResult)
    (hshape : noFailure l = true ∨
      ∃ l0 r, l = l0 ++ [r] ∧ noFailure l0 = true ∧ r.status = Status.failure)
    (i : Nat) (h : i < l.length) (hf : l[i].status = Status.failure) :
    i + 1 = l.length := by
  rcases hshape with hn | ⟨l0, r, he, hl0, hrf⟩
  · exact absurd hf ((noFailure_iff l).mp hn _ (List.getElem_mem h))
  · subst he
    have hlen : (l0 ++ [r]).length = l0.length + 1 := by simp
    by_cases hi : i < l0.length
    · rw [List.getElem_append_left hi] at hf
      exact absurd hf ((noFailure_iff l0).mp hl0 _ (List.getElem_mem hi))
    · omega

/-! ## Claim theorems -/

/-- C1 (corrected): when the step at position `k` of the configured sequence
records FAILURE, the orchestrator loop halts at once instead of recording the
remaining configured steps as SKIPPED: a FAILURE result is always the very
last entry of the results list, so no later step appears in the results list
at all.  (The skip-on-prior-failure path inside the step executor is
unreachable from the main loop, which breaks on the first failure.) -/
theorem scribe_c1_failure_halts (f : ScribeFlags) (steps : List String)
    (oracle : Nat → StepOutcome) (i : Nat)
    (h : i < (scribeRun f steps oracle).results.length)
    (hf : (scribeRun f steps oracle).results[i].status = Status.failure) :
    i + 1 = (scribeRun f steps oracle).results.length := by
  refine failure_last_aux _ ?_ i h hf
  rcases scribeRun_results_shape f steps oracle with hn | ⟨_, l, r, hres, hl, hrf⟩
  · exact Or.inl hn
  · exact Or.inr ⟨l, r, hres, hl, hrf⟩

/-- C1 witness: a run whose first step fails records exactly that one result,
at the last (and only) position. -/
theorem scribe_c1_failure_halts_witness :
    0 + 1 = (scribeRun cexFlags defaultValidationSteps failFirstOracle).results.length :=
  scribe_c1_failure_halts cexFlags defaultValidationSteps failFirstOracle 0
    (by decide) (by decide)

/-- C1 counterexample to the claim as stated: with the default 16-step
sequence and a first step (`validate_inputs`, position 0, not the final step)
that records FAILURE, the results list consists of that single FAILURE entry;
`setup_environment` (position 1, not the terminal report step) has no recorded
result at all, let alone a SKIPPED one, so later steps are in fact omitted
from the recorded results list. -/
theorem scribe_c1_cex :
    (scribeRun cexFlags defaultValidationSteps failFirstOracle).results =
      [⟨"validate_inputs", Status.failure, "boom"⟩] ∧
    defaultValidationSteps.length = 16 ∧
    defaultValidationSteps.head? = some "validate_inputs" ∧
    (∀ r ∈ (scribeRun cexFlags defaultValidationSteps failFirstOracle).results,
      r.name ≠ "setup_environment") := by
  decide

/-- C2 (corrected): in review-only mode the commit step and the pre-commit
step are never invoked, and any result recorded under either name is SKIPPED;
but such a record exists only if the loop reaches the step before halting,
which under the default step order it never does (the loop ends at
`review_code`). -/
theorem scribe_c2_review_only (f : ScribeFlags) (steps : List String)
    (oracle : Nat → StepOutcome) (hrev : f.reviewOnly = true) :
    ("run_precommit" ∉ (scribeRun f steps oracle).invoked ∧
      "commit_changes" ∉ (scribeRun f steps oracle).invoked) ∧
    (∀ r ∈ (scribeRun f steps oracle).results,
      (r.name = "run_precommit" ∨ r.name = "commit_changes") →
        r.status = Status.skipped) := by
  unfold scribeRun
  by_cases hemp : steps.isEmpty
  · rw [if_pos hemp]
    refine ⟨⟨by simp, by simp⟩, ?_⟩
    intro r hr hname
    simp only [List.mem_singleton] at hr
    subst hr
    rcases hname with h | h <;> exact absurd h (by decide)
  · rw [if_neg hemp]
    obtain ⟨hpi, hpr⟩ := runSteps_review_only_inv f oracle "run_precommit" hrev
      (Or.inl rfl) steps 0 ⟨[], [], true⟩ (by simp) (by simp)
    obtain ⟨hci, hcr⟩ := runSteps_review_only_inv f oracle "commit_changes" hrev
      (Or.inr rfl) steps 0 ⟨[], [], true⟩ (by simp) (by simp)
    refine ⟨⟨hpi, hci⟩, ?_⟩
    intro r hr hname
    rcases hname with h | h
    · exact hpr r hr h
    · exact hcr r hr h

/-- C2 witness: the invariants evaluated on a review-only run over the default
step list with every invoked step succeeding. -/
theorem scribe_c2_review_only_witness :
    ("run_precommit" ∉ (scribeRun reviewOnlyFlags defaultValidationSteps allOkOracle).invoked ∧
      "commit_changes" ∉ (scribeRun reviewOnlyFlags defaultValidationSteps allOkOracle).invoked) ∧
    (∀ r ∈ (scribeRun reviewOnlyFlags defaultValidationSteps allOkOracle).results,
      (r.name = "run_precommit" ∨ r.name = "commit_changes") →
        r.status = Status.skipped) :=
  scribe_c2_review_only reviewOnlyFlags defaultValidationSteps allOkOracle rfl

/-- C2 counterexample to the claim as stated: a review-only run over the
default step list, with every invoked step succeeding, ends at `review_code`;
although `run_precommit` and `commit_changes` are both configured, neither
name appears in the recorded results list, so no SKIPPED record exists for
them. -/
theorem scribe_c2_cex :
    reviewOnlyFlags.reviewOnly = true ∧
    "run_precommit" ∈ defaultValidationSteps ∧
    "commit_changes" ∈ defaultValidationSteps ∧
    (∀ r ∈ (scribeRun reviewOnlyFlags defaultValidationSteps allOkOracle).results,
      r.name ≠ "run_precommit" ∧ r.name ≠ "commit_changes") := by
  decide

/-- C3 (confirmed): for every run, the finalized overall status is SUCCESS
exactly when no recorded step has status FAILURE, and the process exit code is
zero exactly when the overall status is SUCCESS — including the
configuration-error path for an empty or unset step list, which records a
synthetic FAILURE and exits non-zero. -/
theorem scribe_c3_status_exit (f : ScribeFlags) (steps : List String)
    (oracle : Nat → StepOutcome) :
    ((scribeRun f steps oracle).overallStatus = Status.success ↔
      ∀ r ∈ (scribeRun f steps oracle).results, r.status ≠ Status.failure) ∧
    ((scribeRun f steps oracle).exitCode = 0 ↔
      (scribeRun f steps oracle).overallStatus = Status.success) := by
  by_cases hemp : steps.isEmpty
  · unfold scribeRun
    rw [if_pos hemp]
    refine ⟨⟨fun h => absurd h (by decide), fun h => ?_⟩,
      ⟨fun h => absurd h (by decide), fun h => absurd h (by decide)⟩⟩
    exact absurd (h ⟨"pipeline_setup", Status.failure,
      "Critical: Validation steps not configured in ScribeConfig."⟩ (by simp) rfl) (fun hc => hc)
  · rw [scribeRun_results f steps oracle hemp,
      scribeRun_overallStatus f steps oracle hemp,
      scribeRun_exitCode f steps oracle hemp]
    rcases runSteps_shape f oracle steps 0 ⟨[], [], true⟩ rfl rfl with
      ⟨hs, hn⟩ | ⟨hs, l, r, hres, hl, hrf⟩
    · rw [hs, if_true_bool, if_true_bool]
      exact ⟨⟨fun _ => (noFailure_iff _).mp hn, fun _ => rfl⟩, ⟨fun _ => rfl, fun _ => rfl⟩⟩
    · rw [hs, if_false_bool, if_false_bool]
      refine ⟨⟨fun h => absurd h (by decide), fun hall => ?_⟩,
        ⟨fun h => absurd h (by decide), fun h => absurd h (by decide)⟩⟩
      exfalso
      refine hall r ?_ hrf
      rw [hres]
      exact List.mem_append_right _ (by simp)

/-- C3 evaluation at a concrete run: first step failing gives overall FAILURE
and exit code 1. -/
theorem scribe_c3_status_exit_eval :
    ((scribeRun cexFlags defaultValidationSteps failFirstOracle).overallStatus = Status.success ↔
      ∀ r ∈ (scribeRun cexFlags defaultValidationSteps failFirstOracle).results,
        r.status ≠ Status.failure) ∧
    ((scribeRun cexFlags defaultValidationSteps failFirstOracle).exitCode = 0 ↔
      (scribeRun cexFlags defaultValidationSteps failFirstOracle).overallStatus = Status.success) :=
  scribe_c3_status_exit cexFlags defaultValidationSteps failFirstOracle

/-- C4 (confirmed): the effective commit intent computed at startup agrees,
for every combination of the three flags, with the spec's description: false
when review-only is active; otherwise false when no-commit is active;
otherwise the user's explicit commit flag, defaulting to true when neither
commit flag was given. -/
theorem scribe_c4_commit_intent (f : ScribeFlags) :
    doCommit f = effectiveCommitIntentSpec f := by
  unfold doCommit effectiveCommitIntentSpec resolvedCommitArg
  rfl

/-- C4 evaluation at a concrete flag set: with only `--no-commit` given, the
effective commit intent is false even though the explicit commit flag defaults
to true. -/
theorem scribe_c4_commit_intent_eval :
    doCommit ⟨false, true, false, false⟩ = effectiveCommitIntentSpec ⟨false, true, false, false⟩ :=
  scribe_c4_commit_intent ⟨false, true, false, false⟩

/-! ## Model client retry behaviour (C5) -/

theorem callApiGo_all_net (outcomes : Nat → AttemptOutcome) (e : Nat → String)
    (hout : ∀ i, outcomes i = AttemptOutcome.netErr (e i)) :
    ∀ (remaining attempt : Nat),
      callApiGo outcomes attempt remaining =
        ⟨Except.error (apiFail (e (attempt + remaining))), attempt + remaining + 1,
          remaining⟩ := by
  intro remaining
  induction remaining with
  | zero =>
    intro attempt
    simp [callApiGo, hout attempt]
  | succ rem ih =>
    intro attempt
    simp only [callApiGo, hout attempt]
    rw [ih (attempt + 1)]
    have h1 : attempt + 1 + rem = attempt + (rem + 1) := by omega
    rw [h1]

/-- C5 (confirmed): the model client retries network/timeout failures with a
delay between attempts and gives up after `retries + 1` total attempts,
raising one classified API error whose cause is the last underlying failure;
a JSON decode failure of a received response is never retried: the call fails
right after the first attempt, with no sleep.  In particular, with the
configured retries = 2 and a timeout on every attempt, the call raises
exactly once after 3 total attempts. -/
theorem scribe_c5_retry (retries : Nat) (e : Nat → String)
    (outcomes : Nat → AttemptOutcome) :
    ((∀ i, outcomes i = AttemptOutcome.netErr (e i)) →
      callApi outcomes retries =
        ⟨Except.error (apiFail (e retries)), retries + 1, retries⟩) ∧
    (∀ msg, outcomes 0 = AttemptOutcome.jsonErr msg →
      callApi outcomes retries = ⟨Except.error (apiFail msg), 1, 0⟩) := by
  constructor
  · intro hout
    have h := callApiGo_all_net outcomes e hout retries 0
    simpa [callApi] using h
  · intro msg hmsg
    cases retries with
    | zero => simp [callApi, callApiGo, hmsg]
    | succ n => simp [callApi, callApiGo, hmsg]

/-- C5 evaluation: retries = 2 and a read timeout on every attempt give one
raised error carrying the last timeout, after 3 attempts and 2 delays. -/
theorem scribe_c5_retry_eval :
    callApi (fun _ => AttemptOutcome.netErr "ReadTimeout") 2 =
      ⟨Except.error (apiFail "ReadTimeout"), 3, 2⟩ :=
  (scribe_c5_retry 2 (fun _ => "ReadTimeout")
    (fun _ => AttemptOutcome.netErr "ReadTimeout")).1 (fun _ => rfl)

/-! ## Tool runner behaviour (C7) -/

theorem dropWhile_cons_of_neg {p : Char → Bool} {c : Char} {l : List Char}
    (h : p c = false) : (c :: l).dropWhile p = c :: l := by
  simp [List.dropWhile_cons, h]

theorem stripRight_append_of_last (m0 x : List Char) (c : Char)
    (hc : pyWs c = false) :
    (((m0 ++ [c]) ++ x).reverse.dropWhile pyWs).reverse =
      (m0 ++ [c]) ++ (x.reverse.dropWhile pyWs).reverse := by
  have hrev : ((m0 ++ [c]) ++ x).reverse = x.reverse ++ (c :: m0.reverse) := by
    simp
  rw [hrev, List.dropWhile_append]
  by_cases hx : (x.reverse.dropWhile pyWs).isEmpty
  · rw [if_pos hx, dropWhile_cons_of_neg hc]
    rw [List.isEmpty_iff] at hx
    simp [hx]
  · rw [if_neg hx]
    simp

theorem stripChars_append_marker (m x : List Char) (c0 : Char) (m1 : List Char)
    (hhead : m = c0 :: m1) (hc0 : pyWs c0 = false)
    (m0 : List Char) (cl : Char) (hlast : m = m0 ++ [cl]) (hcl : pyWs cl = false) :
    stripChars (m ++ x) = m ++ (x.reverse.dropWhile pyWs).reverse := by
  unfold stripChars
  have hdrop : (m ++ x).dropWhile pyWs = m ++ x := by
    rw [hhead, List.cons_append, dropWhile_cons_of_neg hc0]
  rw [hdrop, hlast]
  exact stripRight_append_of_last m0 x cl hcl

theorem timeoutMarker_stderr (c t err : String) :
    ∃ tail : String,
      pyStrip (timeoutMarker c t ++ "\n" ++ err) = timeoutMarker c t ++ tail := by
  refine ⟨String.mk ((("\n" ++ err).toList.reverse.dropWhile pyWs).reverse), ?_⟩
  have hm : (timeoutMarker c t).toList =
      "TimeoutExpired: Cmd ".toList ++ c.toList ++ " > ".toList ++ t.toList ++
        "s.".toList := by
    simp [timeoutMarker, String.toList, String.data_append]
  have hdata : (timeoutMarker c t ++ "\n" ++ err).toList =
      (timeoutMarker c t).toList ++ ("\n" ++ err).toList := by
    simp [String.toList, String.data_append]
  have hhead : (timeoutMarker c t).toList =
      'T' :: ("imeoutExpired: Cmd ".toList ++ c.toList ++ " > ".toList ++
        t.toList ++ "s.".toList) := by
    rw [hm]
    simp [String.toList]
  have hlast : (timeoutMarker c t).toList =
      ("TimeoutExpired: Cmd ".toList ++ c.toList ++ " > ".toList ++ t.toList ++
        "s".toList) ++ ['.'] := by
    rw [hm]
    simp [String.toList, List.append_assoc]
  have hstrip := stripChars_append_marker (timeoutMarker c t).toList
    ("\n" ++ err).toList 'T' _ hhead (by decide) _ '.' hlast (by decide)
  unfold pyStrip
  rw [hdata, hstrip]
  rfl

/-- C7 (confirmed): the process runner never raises for a non-zero exit code
(a completed process is returned whatever its code); a timeout yields a
synthetic result with the distinguished exit code -1 whose stderr starts with
the timeout marker, not an exception; and a classified error is raised
exactly when the command is non-empty and either the executable cannot be
located or the operating system refuses to start the process. -/
theorem scribe_c7_run_tool (commandArgs : List String)
    (findExec : String → Option String) (proc : ProcOutcome)
    (cmdStr timeoutStr : String) :
    (∀ execName rest rc out err,
      commandArgs = execName :: rest → (∃ p, findExec execName = some p) →
      proc = ProcOutcome.completes rc out err →
      runTool commandArgs findExec proc cmdStr timeoutStr = Except.ok ⟨rc, out, err⟩) ∧
    (∀ execName rest out err,
      commandArgs = execName :: rest → (∃ p, findExec execName = some p) →
      proc = ProcOutcome.timesOut out err →
      ∃ tail, runTool commandArgs findExec proc cmdStr timeoutStr =
        Except.ok ⟨-1, out, timeoutMarker cmdStr timeoutStr ++ tail⟩) ∧
    ((∃ e, runTool commandArgs findExec proc cmdStr timeoutStr = Except.error e) ↔
      ∃ execName rest, commandArgs = execName :: rest ∧
        (findExec execName = none ∨
          ∃ m p, proc = ProcOutcome.spawnFail m ∧ findExec execName = some p)) := by
  refine ⟨?_, ?_, ?_⟩
  · rintro execName rest rc out err rfl ⟨p, hp⟩ rfl
    simp [runTool, hp]
  · rintro execName rest out err rfl ⟨p, hp⟩ rfl
    obtain ⟨tail, htail⟩ := timeoutMarker_stderr cmdStr timeoutStr err
    refine ⟨tail, ?_⟩
    simp [runTool, hp, htail]
  · constructor
    · rintro ⟨e, he⟩
      match commandArgs with
      | [] => simp [runTool] at he
      | execName :: rest =>
        refine ⟨execName, rest, rfl, ?_⟩
        cases hfe : findExec execName with
        | none => exact Or.inl rfl
        | some p =>
          cases proc with
          | completes rc out err => simp [runTool, hfe] at he
          | timesOut out err => simp [runTool, hfe] at he
          | spawnFail m => exact Or.inr ⟨m, p, rfl, rfl⟩
    · rintro ⟨execName, rest, rfl, hfail⟩
      rcases hfail with hnone | ⟨m, p, rfl, hp⟩
      · exact ⟨"Executable " ++ execName ++ " not found.", by simp [runTool, hnone]⟩
      · exact ⟨"OS error executing " ++ execName ++ ": " ++ m, by simp [runTool, hp]⟩

/-- C7 evaluation: a tool that exits with code 1 (issues found) is returned,
not raised. -/
theorem scribe_c7_run_tool_eval :
    runTool ["ruff", "check"] (fun _ => some "/usr/bin/ruff")
      (ProcOutcome.completes 1 "issues" "") "ruff check" "180.0" =
      Except.ok ⟨1, "issues", ""⟩ :=
  (scribe_c7_run_tool ["ruff", "check"] (fun _ => some "/usr/bin/ruff")
    (ProcOutcome.completes 1 "issues" "") "ruff check" "180.0").1
    "ruff" ["check"] 1 "issues" "" rfl ⟨"/usr/bin/ruff", rfl⟩ rfl

/-! ## Environment setup idempotence (C8) -/

/-- C8 (confirmed): starting from a target directory with no venv, a
successful setup performed the creation, leaves the venv in place, and a
second setup against the resulting state performs no creation yet still
succeeds, whatever the second invocation's external command behaviour. -/
theorem scribe_c8_setup_idempotent (fs : VenvFS) (env env2 : VenvEnvBehavior)
    (out : SetupOutcome) (hfresh : fs.venvExists = false)
    (hok : setupVenv fs env = Except.ok out) :
    out.created = true ∧ out.fs.venvExists = true ∧
    setupVenv out.fs env2 =
      Except.ok ⟨out.fs, false, env2.upgradeRaises || (env2.upgradeRC != 0)⟩ := by
  unfold setupVenv at hok
  rw [if_pos hfresh] at hok
  by_cases hcr : env.createRaises = true
  · rw [if_pos hcr] at hok
    exact absurd hok (by simp)
  · rw [if_neg hcr] at hok
    by_cases hrc : env.createRC ≠ 0
    · rw [if_pos hrc] at hok
      exact absurd hok (by simp)
    · rw [if_neg hrc] at hok
      unfold setupVenvFinish at hok
      by_cases hpp : ((⟨true, env.pythonAfterCreate, env.pipAfterCreate⟩ :
          VenvFS).hasPython = false ∨
          (⟨true, env.pythonAfterCreate, env.pipAfterCreate⟩ : VenvFS).hasPip = false)
      · rw [if_pos hpp] at hok
        exact absurd hok (by simp)
      · rw [if_neg hpp] at hok
        simp only at hpp
        push_neg at hpp
        obtain ⟨hpy, hpip⟩ := hpp
        have hpy2 : env.pythonAfterCreate = true := by
          cases h : env.pythonAfterCreate
          · exact absurd h hpy
          · rfl
        have hpip2 : env.pipAfterCreate = true := by
          cases h : env.pipAfterCreate
          · exact absurd h hpip
          · rfl
        have hout : out = ⟨⟨true, env.pythonAfterCreate, env.pipAfterCreate⟩, true,
            env.upgradeRaises || (env.upgradeRC != 0)⟩ := by
          injection hok with h
          exact h.symm
        subst hout
        refine ⟨rfl, rfl, ?_⟩
        unfold setupVenv
        rw [if_neg (by simp)]
        unfold setupVenvFinish
        rw [if_neg (by simp [hpy2, hpip2])]

/-- C8 witness: concrete fresh directory, creation succeeds and populates the
venv; the second setup reuses it without creating. -/
theorem scribe_c8_setup_idempotent_witness :
    (⟨⟨true, true, true⟩, true, false⟩ : SetupOutcome).created = true ∧
    (⟨⟨true, true, true⟩, true, false⟩ : SetupOutcome).fs.venvExists = true ∧
    setupVenv (⟨⟨true, true, true⟩, true, false⟩ : SetupOutcome).fs
        ⟨false, 0, true, true, false, 0⟩ =
      Except.ok ⟨(⟨⟨true, true, true⟩, true, false⟩ : SetupOutcome).fs, false,
        (⟨false, 0, true, true, false, 0⟩ : VenvEnvBehavior).upgradeRaises ||
          ((⟨false, 0, true, true, false, 0⟩ : VenvEnvBehavior).upgradeRC != 0)⟩ :=
  scribe_c8_setup_idempotent ⟨false, false, false⟩ ⟨false, 0, true, true, false, 0⟩
    ⟨false, 0, true, true, false, 0⟩ ⟨⟨true, true, true⟩, true, false⟩ rfl rfl

/-! ## AI step status classification (C9) -/

/-- C9 (corrected): the test-generation step is SUCCESS exactly when usable
test code was extracted and FAILURE otherwise; but the review step records
ADVISORY unconditionally — also when review extraction failed and produced no
usable output, where the claim requires FAILURE. -/
theorem scribe_c9_ai_step_status :
    (∀ tests : Option String,
      ((stepGenerateTests tests).1 = Status.success ↔ pyTruthy tests = true) ∧
      ((stepGenerateTests tests).1 = Status.failure ↔ pyTruthy tests = false)) ∧
    (∀ review : Option (List Finding), (stepReviewCode review).1 = Status.advisory) := by
  constructor
  · intro tests
    unfold stepGenerateTests
    by_cases ht : pyTruthy tests = true
    · rw [ht]
      simp
    · rw [Bool.not_eq_true] at ht
      rw [ht]
      simp
  · intro review
    rfl

/-- C9 evaluation: usable extracted code gives SUCCESS; absent code gives
FAILURE. -/
theorem scribe_c9_ai_step_status_eval :
    ((stepGenerateTests (some "import pytest")).1 = Status.success ↔
      pyTruthy (some "import pytest") = true) ∧
    ((stepGenerateTests (some "import pytest")).1 = Status.failure ↔
      pyTruthy (some "import pytest") = false) :=
  scribe_c9_ai_step_status.1 (some "import pytest")

/-- C9 counterexample to the claim as stated: when the review client returns
no usable output (`None`, e.g. after a JSON decode failure of the review
response), the review step still records ADVISORY — not the FAILURE the
claim's extraction-based classification requires for AI steps. -/
theorem scribe_c9_cex :
    (stepReviewCode none).1 = Status.advisory ∧
    Status.advisory ≠ Status.failure ∧
    (stepReviewCode none).2 = [] := by
  exact ⟨rfl, by decide, rfl⟩

/-! ## Code-extraction convention (C6) -/

theorem lcEq_self (c : Char) : lcEq c c = true := by
  simp [lcEq]

theorem leadsWithCI_self_append (p t : List Char) :
    leadsWithCI p (p ++ t) = true := by
  induction p with
  | nil => rfl
  | cons c cs ih => simp [leadsWithCI, List.cons_append, lcEq_self, ih]

theorem scanPyF_fuel : ∀ (f1 f2 : Nat) (l : List Char),
    l.length < f1 → l.length < f2 → scanPyF f1 l = scanPyF f2 l := by
  intro f1
  induction f1 with
  | zero =>
    intro f2 l h1 _
    omega
  | succ k ih =>
    intro f2 l h1 h2
    cases f2 with
    | zero => omega
    | succ m =>
      cases l with
      | nil => rfl
      | cons c cs =>
        simp only [scanPyF]
        by_cases hop : leadsWithCI pyOpenTag (c :: cs) = true
        · rw [if_pos hop, if_pos hop]
          cases hfc : findClose ((c :: cs).drop 10) with
          | some j =>
            simp only [hfc]
            congr 1
            apply ih
            · rw [List.length_drop, List.length_drop]
              simp only [List.length_cons] at h1 ⊢
              omega
            · rw [List.length_drop, List.length_drop]
              simp only [List.length_cons] at h2 ⊢
              omega
          | none =>
            simp only [hfc]
            apply ih
            · simp only [List.length_cons] at h1
              omega
            · simp only [List.length_cons] at h2
              omega
        · rw [if_neg hop, if_neg hop]
          apply ih
          · simp only [List.length_cons] at h1
            omega
          · simp only [List.length_cons] at h2
            omega

theorem scanPy_not_open (c : Char) (cs : List Char)
    (h : ¬ leadsWithCI pyOpenTag (c :: cs) = true) :
    scanPy (c :: cs) = scanPy cs := by
  show scanPyF (cs.length + 1 + 1) (c :: cs) = scanPyF (cs.length + 1) cs
  simp only [scanPyF]
  rw [if_neg h]

theorem scanPy_open (l : List Char) (j : Nat) (hne : l ≠ [])
    (h : leadsWithCI pyOpenTag l = true)
    (hj : findClose (l.drop 10) = some j) :
    scanPy l = (l.drop 10).take j :: scanPy ((l.drop 10).drop (j + 4)) := by
  cases l with
  | nil => exact absurd rfl hne
  | cons c cs =>
    show scanPyF (cs.length + 1 + 1) (c :: cs) = _
    simp only [scanPyF]
    rw [if_pos h]
    simp only [hj]
    congr 1
    apply scanPyF_fuel
    · rw [List.length_drop, List.length_drop]
      simp only [List.length_cons]
      omega
    · exact Nat.lt_succ_self _

theorem findClose_append (a : List Char) (t : List Char)
    (ha : findClose a = none) :
    findClose (a ++ ('\n' :: btick :: btick :: btick :: t)) = some a.length := by
  induction a with
  | nil =>
    have hca : closeAt ('\n' :: btick :: btick :: btick :: t) = true := by
      simp [closeAt]
    simp [findClose, hca]
  | cons c cs ih =>
    have hsplit : closeAt (c :: cs) = false ∧ findClose cs = none := by
      by_cases hca : closeAt (c :: cs) = true
      · rw [findClose, if_pos hca] at ha
        exact absurd ha (by simp)
      · rw [findClose, if_neg hca] at ha
        refine ⟨by rwa [Bool.not_eq_true] at hca, ?_⟩
        cases hfc : findClose cs with
        | none => rfl
        | some k =>
          rw [hfc] at ha
          exact absurd ha (by simp)
    obtain ⟨hclose, hnone⟩ := hsplit
    have hnb : ('\n' == btick) = false := by decide
    have hcafalse :
        closeAt (c :: (cs ++ ('\n' :: btick :: btick :: btick :: t))) = false := by
      rcases cs with _ | ⟨c1, _ | ⟨c2, _ | ⟨c3, cs3⟩⟩⟩
      · simp [closeAt, hnb]
      · simp [closeAt, hnb]
      · simp [closeAt, hnb]
      · exact hclose
    rw [List.cons_append, findClose, if_neg (by simp [hcafalse]), ih hnone]
    simp

theorem scanPy_two_blocks (a b : List Char)
    (ha : findClose a = none) (hb : findClose b = none) :
    scanPy (pyOpenTag ++
        (a ++ (closeTag ++ ('\n' :: (pyOpenTag ++ (b ++ closeTag)))))) = [a, b] := by
  have hdrop10 : (pyOpenTag ++
      (a ++ (closeTag ++ ('\n' :: (pyOpenTag ++ (b ++ closeTag)))))).drop 10
      = a ++ (closeTag ++ ('\n' :: (pyOpenTag ++ (b ++ closeTag)))) := by
    have h10 : (10 : Nat) = pyOpenTag.length := rfl
    rw [h10, List.drop_left]
  have hfc1 : findClose (a ++ (closeTag ++ ('\n' :: (pyOpenTag ++ (b ++ closeTag)))))
      = some a.length := findClose_append a _ ha
  rw [scanPy_open _ a.length (by simp [pyOpenTag])
    (leadsWithCI_self_append _ _) (by rw [hdrop10]; exact hfc1)]
  rw [hdrop10]
  have htake : (a ++ (closeTag ++ ('\n' :: (pyOpenTag ++ (b ++ closeTag))))).take a.length
      = a := List.take_left a _
  have hdrop2 : (a ++ (closeTag ++ ('\n' :: (pyOpenTag ++ (b ++ closeTag))))).drop
      (a.length + 4) = '\n' :: (pyOpenTag ++ (b ++ closeTag)) := by
    rw [← List.append_assoc]
    have hl : a.length + 4 = (a ++ closeTag).length := by simp [closeTag]
    rw [hl, List.drop_left]
  rw [htake, hdrop2]
  have hlc : lcEq btick '\n' = false := by decide
  rw [scanPy_not_open _ _ (by simp [pyOpenTag, leadsWithCI, hlc])]
  have hdropb : (pyOpenTag ++ (b ++ closeTag)).drop 10 = b ++ closeTag := by
    have h10 : (10 : Nat) = pyOpenTag.length := rfl
    rw [h10, List.drop_left]
  have hfcb : findClose (b ++ closeTag) = some b.length := by
    have := findClose_append b [] hb
    simpa using this
  rw [scanPy_open _ b.length (by simp [pyOpenTag])
    (leadsWithCI_self_append _ _) (by rw [hdropb]; exact hfcb)]
  rw [hdropb]
  have htakeb : (b ++ closeTag).take b.length = b := List.take_left b _
  have hdropb2 : (b ++ closeTag).drop (b.length + 4) = [] := by
    have hl : b.length + 4 = (b ++ closeTag).length := by simp [closeTag]
    rw [hl, List.drop_length]
  rw [htakeb, hdropb2]
  rfl

/-- C6 (corrected): extraction prefers python-tagged fenced blocks, each
trimmed and joined with the separator comment (the joined string trimmed once
more); with no python-tagged block it falls back to the first fenced block of
ANY tag — not only an untagged one — trimmed; with no fenced block at all the
whole response, trimmed, is the code.  The last clause proves the claim's
two-tagged-blocks scenario for arbitrary block bodies free of the closing
fence. -/
theorem scribe_c6_extract :
    (∀ r : String,
      (∀ bs, scanPy r.toList = bs → bs ≠ [] →
        extractCode r =
          pyStrip (joinSep sepComment (bs.map (fun x => String.mk (stripChars x))))) ∧
      (scanPy r.toList = [] → ∀ c cs, scanGen r.toList = c :: cs →
        extractCode r = String.mk (stripChars c)) ∧
      (scanPy r.toList = [] → scanGen r.toList = [] → extractCode r = pyStrip r)) ∧
    (∀ a b : String, findClose a.toList = none → findClose b.toList = none →
      extractCode ("```python\n" ++ a ++ "\n```\n```python\n" ++ b ++ "\n```") =
        pyStrip (String.mk (stripChars a.toList) ++ sepComment ++
          String.mk (stripChars b.toList))) := by
  have hchar : ∀ r : String,
      (∀ bs, scanPy r.toList = bs → bs ≠ [] →
        extractCode r =
          pyStrip (joinSep sepComment (bs.map (fun x => String.mk (stripChars x))))) ∧
      (scanPy r.toList = [] → ∀ c cs, scanGen r.toList = c :: cs →
        extractCode r = String.mk (stripChars c)) ∧
      (scanPy r.toList = [] → scanGen r.toList = [] → extractCode r = pyStrip r) := by
    intro r
    refine ⟨?_, ?_, ?_⟩
    · intro bs hbs hne
      cases bs with
      | nil => exact absurd rfl hne
      | cons x xs =>
        unfold extractCode
        rw [hbs]
    · intro hpy c cs hgen
      unfold extractCode
      rw [hpy, hgen]
    · intro hpy hgen
      unfold extractCode
      rw [hpy, hgen]
  refine ⟨hchar, ?_⟩
  intro a b ha hb
  have hlist : ("```python\n" ++ a ++ "\n```\n```python\n" ++ b ++ "\n```").toList
      = pyOpenTag ++
        (a.toList ++ (closeTag ++ ('\n' :: (pyOpenTag ++ (b.toList ++ closeTag))))) := by
    simp only [String.toList, String.data_append]
    simp [pyOpenTag, closeTag, btick, List.append_assoc]
  unfold extractCode
  rw [hlist, scanPy_two_blocks a.toList b.toList ha hb]
  rfl

/-- C6 witness for the two-tagged-blocks scenario: the extracted code is the
two block bodies, each trimmed, joined with the separator comment. -/
theorem scribe_c6_extract_witness :
    extractCode ("```python\n" ++ " x = 1 " ++ "\n```\n```python\n" ++ "y = 2" ++ "\n```") =
      pyStrip (String.mk (stripChars (" x = 1 " : String).toList) ++ sepComment ++
        String.mk (stripChars ("y = 2" : String).toList)) :=
  scribe_c6_extract.2 " x = 1 " "y = 2" (by decide) (by decide)

/-- C6 counterexample to the claim as stated: a response with a js-tagged
fenced block followed by an untagged fenced block has no python-tagged block;
the claim says the result is the first UNTAGGED block's content ("B"), but
extraction returns the earlier js-tagged block's content ("A"). -/
theorem scribe_c6_cex :
    scanPy ("```js\nA\n``` x\n```\nB\n```" : String).toList = [] ∧
    (scanUntaggedSpec ("```js\nA\n``` x\n```\nB\n```" : String).toList).map String.mk
      = ["B"] ∧
    extractCode "```js\nA\n``` x\n```\nB\n```" = "A" ∧
    ("A" : String) ≠ "B" := by
  decide

/-! ## Generated tests are syntactically valid (C10) -/

/-- C10 (confirmed): AI test generation returns code only when the parse
check (`ast.parse`) accepted it — a syntax error yields `none`, hence step
FAILURE — and the save-tests step, fed from a successful test-generation
step, writes exactly that validated, non-empty code to disk. -/
theorem scribe_c10_tests_parse (apiResult : Except String String)
    (parsesOk : String → Bool) (t : String)
    (h : llmGenerateTests apiResult parsesOk = some t) :
    parsesOk t = true ∧ t ≠ "" ∧
    stepGenerateTests (llmGenerateTests apiResult parsesOk) =
      (Status.success, some t, "Tests AI-generated.") ∧
    stepSaveTests (some t) = (Status.success, some t, "Tests saved.") := by
  cases apiResult with
  | error e =>
    simp only [llmGenerateTests] at h
    exact absurd h (by simp)
  | ok raw =>
    simp only [llmGenerateTests] at h
    by_cases h1 : (pyStrip raw).isEmpty = true
    · rw [if_pos h1] at h
      exact absurd h (by simp)
    · rw [if_neg h1] at h
      by_cases h2 : (extractCode raw).isEmpty = true
      · rw [if_pos h2] at h
        exact absurd h (by simp)
      · rw [if_neg h2] at h
        by_cases h3 : parsesOk (extractCode raw) = true
        · rw [if_pos h3] at h
          have ht : t = extractCode raw := by
            injection h with h4
            exact h4.symm
          subst ht
          have hne : extractCode raw ≠ "" := by
            intro he
            rw [he] at h2
            exact h2 rfl
          have htr : pyTruthy (some (extractCode raw)) = true := by
            simp only [pyTruthy]
            cases hie : (extractCode raw).isEmpty
            · rfl
            · exact absurd hie h2
          refine ⟨h3, hne, ?_, ?_⟩
          · simp only [llmGenerateTests]
            rw [if_neg h1, if_neg h2, if_pos h3]
            unfold stepGenerateTests
            rw [htr]
            simp
          · unfold stepSaveTests
            rw [htr]
            simp
        · rw [if_neg h3] at h
          exact absurd h (by simp)

/-- C10 witness: a response with one python-tagged block whose content the
parse oracle accepts flows through extraction, generation and saving. -/
theorem scribe_c10_tests_parse_witness :
    parsesOkC10 "import pytest" = true ∧ ("import pytest" : String) ≠ "" ∧
    stepGenerateTests
        (llmGenerateTests (Except.ok "```python\nimport pytest\n```") parsesOkC10) =
      (Status.success, some "import pytest", "Tests AI-generated.") ∧
    stepSaveTests (some "import pytest") =
      (Status.success, some "import pytest", "Tests saved.") :=
  scribe_c10_tests_parse (Except.ok "```python\nimport pytest\n```") parsesOkC10
    "import pytest" (by decide)

end Scribe
